import Mathlib

/-!
Verification of the permit / permit-cache subsystem of parkkihubi
(`parkings/models/permit.py`) against its natural-language specification.

The Python data model and operations are shallowly embedded: timestamps are
integers, Django querysets become list filters, and the database becomes an
explicit `Store` record threaded through the write operations.
-/

namespace Parkkihubi

/-- One entry of a permit's `subjects` JSON list, after validation:
`{'start_time': ..., 'end_time': ..., 'registration_number': ...}`. -/
structure Subject where
  registration_number : String
  start_time : Int
  end_time : Int
deriving DecidableEq, Repr

/-- One entry of a permit's `areas` JSON list, after validation:
`{'start_time': ..., 'end_time': ..., 'area': ...}`. -/
structure AreaEntry where
  area : String
  start_time : Int
  end_time : Int
deriving DecidableEq, Repr

/-- Modelled from the spec: `Parking.normalize_reg_num` is not part of the
given sources (only its call sites in `permit.py` are).  The spec describes it
as a pure function normalizing whitespace, case and punctuation so that
"ABC 123", "abc-123" and "ABC123" coincide, with "ABC-123" stored as
"ABC123": uppercase the string and keep only alphanumeric characters. -/
def normalize_reg_num (s : String) : String :=
  ⟨(s.data.map Char.toUpper).filter Char.isAlphanum⟩

/-- A row of the `PermitCacheItem` table (`permit.py`, class
`PermitCacheItem`): the owning permit's id plus the denormalized
registration number, area identifier and validity interval. -/
structure CacheRow where
  permit_id : Nat
  registration_number : String
  area_identifier : String
  start_time : Int
  end_time : Int
deriving DecidableEq, Repr

/-- `Permit._make_cache_items` (`permit.py` lines 116-131): for every pair in
`areas × subjects` compute `max` of starts and `min` of ends, skip the pair
when `max_start_time >= min_end_time`, otherwise yield a cache row with the
normalized registration number. -/
def make_cache_items (permit_id : Nat)
    (subjects : List Subject) (areas : List AreaEntry) : List CacheRow :=
  areas.flatMap fun area =>
    subjects.filterMap fun subject =>
      let max_start_time := max subject.start_time area.start_time
      let min_end_time := min subject.end_time area.end_time
      if max_start_time ≥ min_end_time then
        none
      else
        some { permit_id := permit_id
               registration_number :=
                 normalize_reg_num subject.registration_number
               area_identifier := area.area
               start_time := max_start_time
               end_time := min_end_time }

/-- A validated `Permit` row (`permit.py`, class `Permit`): owning series,
and the two cleaned JSON lists. -/
structure Permit where
  id : Nat
  series_id : Nat
  subjects : List Subject
  areas : List AreaEntry
deriving DecidableEq, Repr

/-- A not-yet-validated subject entry as it arrives in the JSON payload: a
field is `none` when the key is missing, of the wrong type, or (for
timestamps) malformed — exactly the failures `DictListValidator` with
`TimestampField` / `TextField` rejects. -/
structure RawSubject where
  start_time : Option Int
  end_time : Option Int
  registration_number : Option String
deriving DecidableEq, Repr

/-- A not-yet-validated area entry of the `areas` JSON list. -/
structure RawAreaEntry where
  start_time : Option Int
  end_time : Option Int
  area : Option String
deriving DecidableEq, Repr

/-- A permit as submitted for saving, before `full_clean` has validated its
`subjects` and `areas` lists. -/
structure RawPermit where
  id : Nat
  series_id : Nat
  subjects : List RawSubject
  areas : List RawAreaEntry
deriving DecidableEq, Repr

/-- `DictListValidator` entry check for a subject: the keys `start_time`,
`end_time` (timestamps) and `registration_number` (text, max length 20) must
all be present and well formed. -/
def cleanSubject (r : RawSubject) : Option Subject :=
  match r.start_time, r.end_time, r.registration_number with
  | some s, some e, some reg =>
      if reg.length ≤ 20 then some ⟨reg, s, e⟩ else none
  | _, _, _ => none

/-- `DictListValidator` entry check for an area entry: keys `start_time`,
`end_time` (timestamps) and `area` (text, max length 10). -/
def cleanAreaEntry (r : RawAreaEntry) : Option AreaEntry :=
  match r.start_time, r.end_time, r.area with
  | some s, some e, some a =>
      if a.length ≤ 10 then some ⟨a, s, e⟩ else none
  | _, _, _ => none

/-- `DictListValidator` over a whole JSON list: every entry must validate
(an empty list is vacuously valid, both list fields are `blank=True`). -/
def cleanList {α β : Type} (f : α → Option β) : List α → Option (List β)
  | [] => some []
  | a :: rest =>
      match f a, cleanList f rest with
      | some b, some bs => some (b :: bs)
      | _, _ => none

/-- `Permit.full_clean`: schema-validate both JSON lists; the save is
rejected (returns `none`) iff any subject or area entry fails validation. -/
def full_clean (rp : RawPermit) : Option Permit :=
  match cleanList cleanSubject rp.subjects, cleanList cleanAreaEntry rp.areas with
  | some subjects, some areas => some ⟨rp.id, rp.series_id, subjects, areas⟩
  | _, _ => none

/-- The permit/cache part of the database: the `Permit` table and the
`PermitCacheItem` table. -/
structure Store where
  permits : List Permit
  cache_items : List CacheRow
deriving DecidableEq, Repr

/-- The cache rows a store holds for one permit (`self.cache_items.all()`). -/
def cacheFor (st : Store) (permit_id : Nat) : List CacheRow :=
  st.cache_items.filter fun r => r.permit_id = permit_id

/-- `Permit.save` (`permit.py` lines 107-114): `full_clean` first — a
validation failure aborts with the store untouched; otherwise, in one atomic
transaction, upsert the permit row, delete all of the permit's cache rows
and insert the freshly generated ones. -/
def save (st : Store) (rp : RawPermit) : Store :=
  match full_clean rp with
  | none => st
  | some p =>
      { permits := p :: st.permits.filter fun q => q.id ≠ p.id
        cache_items :=
          (st.cache_items.filter fun r => r.permit_id ≠ p.id) ++
            make_cache_items p.id p.subjects p.areas }

/-- `PermitQuerySet.bulk_create` (`permit.py` lines 69-78): inside one
atomic transaction, insert all permit rows, then `full_clean` each permit
and collect its cache items, then bulk-insert the cache items.  Any
validation failure rolls the whole transaction back (store unchanged). -/
def bulk_create (st : Store) (rps : List RawPermit) : Store :=
  match cleanList full_clean rps with
  | none => st
  | some ps =>
      { permits := st.permits ++ ps
        cache_items :=
          st.cache_items ++
            ps.flatMap fun p => make_cache_items p.id p.subjects p.areas }

namespace PermitCacheItemQuerySet

/-- `PermitCacheItemQuerySet.by_time` (`permit.py` lines 135-136):
`filter(start_time__lte=timestamp, end_time__gte=timestamp)`. -/
def by_time (rows : List CacheRow) (timestamp : Int) : List CacheRow :=
  rows.filter fun r => r.start_time ≤ timestamp ∧ timestamp ≤ r.end_time

/-- `PermitCacheItemQuerySet.by_registration_number`:
`filter(registration_number=registration_number)`. -/
def by_registration_number (rows : List CacheRow)
    (registration_number : String) : List CacheRow :=
  rows.filter fun r => r.registration_number = registration_number

/-- `PermitCacheItemQuerySet.by_area`:
`filter(area_identifier=area_identifier)`. -/
def by_area (rows : List CacheRow) (area_identifier : String) : List CacheRow :=
  rows.filter fun r => r.area_identifier = area_identifier

end PermitCacheItemQuerySet

namespace PermitQuerySet

/-- `PermitQuerySet.by_time` (`permit.py` lines 56-58): the permits with a
cache row in `PermitCacheItem.objects.by_time(timestamp)`, `.distinct()`. -/
def by_time (ps : List Permit) (rows : List CacheRow)
    (timestamp : Int) : List Permit :=
  (ps.filter fun p =>
    (PermitCacheItemQuerySet.by_time rows timestamp).any
      fun r => r.permit_id = p.id).dedup

/-- `PermitQuerySet.by_subject` (`permit.py` lines 60-63): normalize the
argument, take the cache rows with that registration number, return the
permits owning one of them, `.distinct()`. -/
def by_subject (ps : List Permit) (rows : List CacheRow)
    (registration_number : String) : List Permit :=
  (ps.filter fun p =>
    (PermitCacheItemQuerySet.by_registration_number rows
        (normalize_reg_num registration_number)).any
      fun r => r.permit_id = p.id).dedup

/-- `PermitQuerySet.by_area` (`permit.py` lines 65-67). -/
def by_area (ps : List Permit) (rows : List CacheRow)
    (area_identifier : String) : List Permit :=
  (ps.filter fun p =>
    (PermitCacheItemQuerySet.by_area rows area_identifier).any
      fun r => r.permit_id = p.id).dedup

end PermitQuerySet

/-- A `PermitSeries` row (`permit.py`, class `PermitSeries`): the `active`
flag plus the `created_at` timestamp from `TimestampedModelMixin`. -/
structure Series where
  id : Nat
  created_at : Int
  active : Bool
deriving DecidableEq, Repr

/-- `PermitSeriesQuerySet.prunable` (`permit.py` lines 35-37):
`filter(created_at__lt=now - PARKKIHUBI_PERMITS_PRUNABLE_AFTER,
active=False)`. -/
def prunable (ss : List Series) (now window : Int) : List Series :=
  ss.filter fun s => s.created_at < now - window ∧ s.active = false

/-- Modelled from the spec: the activation operation itself is not part of
the given sources (only its tests and `PermitSeriesQuerySet.active` are).
Per the spec, `activate(series)` "sets this series' `active` flag true and
every other series' flag false, atomically, in one transaction". -/
def activate (ss : List Series) (target : Nat) : List Series :=
  ss.map fun s => { s with active := s.id = target }

/-- Modelled from the spec: the prune sweep caller is not part of the given
sources.  Per the spec, `prune()` "hard-deletes every inactive series
created before `now - retention_window`", i.e. deletes exactly the
`prunable()` set. -/
def prune (ss : List Series) (now window : Int) : List Series :=
  ss.filter fun s => ¬(s.created_at < now - window ∧ s.active = false)

/-- The enforcement API's series-activation action, as pinned by its test
`test_old_series_are_pruned` (`test_activate_permit_series.py` lines 26-36):
after activating the target series the endpoint also deletes the prunable
series, in the same request (the test starts with two series and ends with
one). -/
def activateEndpoint (ss : List Series) (target : Nat)
    (now window : Int) : List Series :=
  prune (activate ss target) now window

/-- A `PermitSeries` row extended with a ghost timestamp `inactive_since`
recording when the series last became inactive (its creation time while it
has never been activated; meaningless while `active` is true).  The real
table has no such column; the ghost field is needed only to state the
spec's "inactive for longer than the retention window". -/
structure SeriesHist where
  id : Nat
  created_at : Int
  active : Bool
  inactive_since : Int
deriving DecidableEq, Repr

/-- The activation operation on history-carrying series: same flag updates
as `activate`, with the ghost field set to the activation time on every
series that transitions from active to inactive. -/
def activateH (ss : List SeriesHist) (target : Nat)
    (now : Int) : List SeriesHist :=
  ss.map fun s =>
    if s.id = target then { s with active := true }
    else if s.active then { s with active := false, inactive_since := now }
    else s

/-- `prunable` read off a history-carrying series: the condition the code
actually tests, `created_at < now - window` and `active = false`
(`permit.py` lines 35-37). -/
def prunableH (s : SeriesHist) (now window : Int) : Bool :=
  decide (s.created_at < now - window) && !s.active

/-- The prune sweep on history-carrying series: delete the prunable set. -/
def pruneH (ss : List SeriesHist) (now window : Int) : List SeriesHist :=
  ss.filter fun s => !prunableH s now window

/-- The deletion condition in the claim's own words: the series is inactive
and "has spent more than the configured retention duration in the inactive
state". -/
def inactiveLongerThan (s : SeriesHist) (now window : Int) : Bool :=
  !s.active && decide (now - s.inactive_since > window)

/-- One primitive step of a permit write path, used to compare the order of
validation and row mutation inside `Permit.save` and
`PermitQuerySet.bulk_create`. -/
inductive WriteStep where
  | validate (rp : RawPermit)
  | insertPermitRows
  | deleteCacheRows
  | insertCacheRows
deriving DecidableEq, Repr

/-- Whether a step mutates table rows (everything except validation). -/
def WriteStep.isMutation : WriteStep → Bool
  | .validate _ => false
  | .insertPermitRows => true
  | .deleteCacheRows => true
  | .insertCacheRows => true

/-- Whether a step is a schema validation. -/
def WriteStep.isValidation : WriteStep → Bool
  | .validate _ => true
  | _ => false

/-- The steps of `Permit.save` (`permit.py` lines 107-114) in source order:
`full_clean`, then inside the transaction the permit upsert, the cache
delete and the cache insert. -/
def saveSteps (rp : RawPermit) : List WriteStep :=
  [.validate rp, .insertPermitRows, .deleteCacheRows, .insertCacheRows]

/-- The steps of `PermitQuerySet.bulk_create` (`permit.py` lines 69-78) in
source order: inside the transaction, `super().bulk_create` inserts the
permit rows first, then each permit is `full_clean`ed, then the collected
cache items are inserted. -/
def bulk_createSteps (rps : List RawPermit) : List WriteStep :=
  .insertPermitRows :: rps.map .validate ++ [.insertCacheRows]

/-- Whether every validation step of a write trace runs before any row
mutation: once a mutation has happened, no validation may follow. -/
def validationFirst : List WriteStep → Bool
  | [] => true
  | s :: rest =>
      if s.isMutation then rest.all fun t => !t.isValidation
      else validationFirst rest

/-- A raw permit whose single subject entry is missing its `end_time` key,
so `DictListValidator` rejects it. -/
def badRawPermit : RawPermit :=
  ⟨1, 1, [⟨some 0, none, some "ABC123"⟩], []⟩

/-- A schema-valid raw permit: one subject (interval 0–10) and one area
(interval 5–15), overlapping on 5–10. -/
def exampleRawPermit : RawPermit :=
  ⟨1, 1, [⟨some 0, some 10, some "ABC-123"⟩], [⟨some 5, some 15, some "A1"⟩]⟩

/-- The cleaned form of `exampleRawPermit`. -/
def examplePermit : Permit :=
  ⟨1, 1, [⟨"ABC-123", 0, 10⟩], [⟨"A1", 5, 15⟩]⟩

/-- A schema-valid raw permit whose `subjects` list is empty. -/
def emptySubjectsRawPermit : RawPermit :=
  ⟨2, 1, [], [⟨some 0, some 10, some "A1"⟩]⟩

/-- The cleaned form of `emptySubjectsRawPermit`. -/
def emptySubjectsPermit : Permit :=
  ⟨2, 1, [], [⟨"A1", 0, 10⟩]⟩

end Parkkihubi

namespace Parkkihubi

/-- Membership in `PermitQuerySet.by_time`: in the queryset and owning a
cache row whose closed interval contains the timestamp. -/
theorem mem_by_time_iff (ps : List Permit) (rows : List CacheRow)
    (t : Int) (p : Permit) :
    p ∈ PermitQuerySet.by_time ps rows t ↔
      p ∈ ps ∧ ∃ r ∈ rows, r.permit_id = p.id ∧
        r.start_time ≤ t ∧ t ≤ r.end_time := by
  simp only [PermitQuerySet.by_time, PermitCacheItemQuerySet.by_time,
    List.mem_dedup, List.mem_filter, List.any_eq_true, decide_eq_true_eq]
  tauto

/-- Membership in `PermitQuerySet.by_subject`: in the queryset and owning a
cache row storing the normalized form of the queried registration number. -/
theorem mem_by_subject_iff (ps : List Permit) (rows : List CacheRow)
    (registration_number : String) (p : Permit) :
    p ∈ PermitQuerySet.by_subject ps rows registration_number ↔
      p ∈ ps ∧ ∃ r ∈ rows, r.permit_id = p.id ∧
        r.registration_number = normalize_reg_num registration_number := by
  simp only [PermitQuerySet.by_subject,
    PermitCacheItemQuerySet.by_registration_number,
    List.mem_dedup, List.mem_filter, List.any_eq_true, decide_eq_true_eq]
  tauto

/-- Membership in `PermitQuerySet.by_area`: in the queryset and owning a
cache row with the queried area identifier. -/
theorem mem_by_area_iff (ps : List Permit) (rows : List CacheRow)
    (area_identifier : String) (p : Permit) :
    p ∈ PermitQuerySet.by_area ps rows area_identifier ↔
      p ∈ ps ∧ ∃ r ∈ rows, r.permit_id = p.id ∧
        r.area_identifier = area_identifier := by
  simp only [PermitQuerySet.by_area, PermitCacheItemQuerySet.by_area,
    List.mem_dedup, List.mem_filter, List.any_eq_true, decide_eq_true_eq]
  tauto

/-- Every generated cache row belongs to the generating permit. -/
theorem make_cache_items_permit_id (permit_id : Nat) (S : List Subject)
    (A : List AreaEntry) (row : CacheRow)
    (h : row ∈ make_cache_items permit_id S A) : row.permit_id = permit_id := by
  simp only [make_cache_items, List.mem_flatMap, List.mem_filterMap] at h
  obtain ⟨a, _, s, _, hrow⟩ := h
  by_cases hlt : max s.start_time a.start_time ≥ min s.end_time a.end_time
  · simp [hlt] at hrow
  · simp only [if_neg hlt] at hrow
    cases hrow
    rfl

/-- Every generated cache row has a strictly positive-length interval. -/
theorem make_cache_items_lt (permit_id : Nat) (S : List Subject)
    (A : List AreaEntry) (row : CacheRow)
    (h : row ∈ make_cache_items permit_id S A) :
    row.start_time < row.end_time := by
  simp only [make_cache_items, List.mem_flatMap, List.mem_filterMap] at h
  obtain ⟨a, _, s, _, hrow⟩ := h
  by_cases hlt : max s.start_time a.start_time ≥ min s.end_time a.end_time
  · simp [hlt] at hrow
  · simp only [if_neg hlt] at hrow
    cases hrow
    exact not_le.mp hlt

/-- C1: the cache rows generated for a permit are exactly the non-empty
intersections over the subjects × areas cross product: a row for the pair
`(s, a)` carries the normalized registration number, the area identifier,
`start = max` of the starts and `end = min` of the ends, and is emitted iff
that intersection is non-empty (`start < end`); touching intervals
(`end = start`) produce no row. -/
theorem make_cache_items_exact (permit_id : Nat)
    (S : List Subject) (A : List AreaEntry) (row : CacheRow) :
    row ∈ make_cache_items permit_id S A ↔
      ∃ s ∈ S, ∃ a ∈ A,
        max s.start_time a.start_time < min s.end_time a.end_time ∧
        row = { permit_id := permit_id
                registration_number := normalize_reg_num s.registration_number
                area_identifier := a.area
                start_time := max s.start_time a.start_time
                end_time := min s.end_time a.end_time } := by
  simp only [make_cache_items, List.mem_flatMap, List.mem_filterMap]
  constructor
  · rintro ⟨a, ha, s, hs, hrow⟩
    by_cases hlt : max s.start_time a.start_time ≥ min s.end_time a.end_time
    · simp [hlt] at hrow
    · refine ⟨s, hs, a, ha, not_le.mp hlt, ?_⟩
      simp only [if_neg hlt] at hrow
      exact (Option.some_injective _ hrow).symm
  · rintro ⟨s, hs, a, ha, hlt, hrow⟩
    exact ⟨a, ha, s, hs, by simp [not_le.mpr hlt, hrow]⟩

/-- C2: `by_time(t)` returns exactly the permits owning at least one cache
row whose interval contains `t` under the inclusive test
`start_time <= t <= end_time`, and the result has no duplicates, so each
matching permit appears exactly once however many of its rows match. -/
theorem by_time_exact (ps : List Permit) (rows : List CacheRow)
    (t : Int) (p : Permit) :
    (p ∈ PermitQuerySet.by_time ps rows t ↔
      p ∈ ps ∧ ∃ r ∈ rows, r.permit_id = p.id ∧
        r.start_time ≤ t ∧ t ≤ r.end_time)
    ∧ (PermitQuerySet.by_time ps rows t).Nodup :=
  ⟨mem_by_time_iff ps rows t p, List.nodup_dedup _⟩

/-- C3: `by_subject(r)` normalizes `r` and returns a permit iff it owns a
cache row whose stored registration number is the normalized form of `r`;
inputs differing only in case, spacing or punctuation ("ABC 123",
"abc-123", "ABC123") give identical results, and cache-row generation
stores the normalized form produced by the same function. -/
theorem by_subject_normalized_lookup (ps : List Permit)
    (rows : List CacheRow) (r : String) (p : Permit) :
    (p ∈ PermitQuerySet.by_subject ps rows r ↔
      p ∈ ps ∧ ∃ c ∈ rows, c.permit_id = p.id ∧
        c.registration_number = normalize_reg_num r)
    ∧ PermitQuerySet.by_subject ps rows "ABC 123"
        = PermitQuerySet.by_subject ps rows "abc-123"
    ∧ PermitQuerySet.by_subject ps rows "abc-123"
        = PermitQuerySet.by_subject ps rows "ABC123"
    ∧ ∀ permit_id S A (c : CacheRow), c ∈ make_cache_items permit_id S A →
        ∃ s ∈ S, c.registration_number
          = normalize_reg_num s.registration_number := by
  refine ⟨mem_by_subject_iff ps rows r p, ?_, ?_, ?_⟩
  · have h : normalize_reg_num "ABC 123" = normalize_reg_num "abc-123" := by
      decide
    simp only [PermitQuerySet.by_subject, h]
  · have h : normalize_reg_num "abc-123" = normalize_reg_num "ABC123" := by
      decide
    simp only [PermitQuerySet.by_subject, h]
  · intro permit_id S A c hc
    simp only [make_cache_items, List.mem_flatMap, List.mem_filterMap] at hc
    obtain ⟨a, _, s, hs, hrow⟩ := hc
    by_cases hlt : max s.start_time a.start_time ≥ min s.end_time a.end_time
    · simp [hlt] at hrow
    · simp only [if_neg hlt] at hrow
      cases hrow
      exact ⟨s, hs, rfl⟩

/-- If one element of the list fails validation, validating the whole list
fails. -/
theorem cleanList_eq_none {α β : Type} (f : α → Option β) (l : List α)
    (a : α) (ha : a ∈ l) (hf : f a = none) : cleanList f l = none := by
  induction l with
  | nil => cases ha
  | cons b rest ih =>
      rcases List.mem_cons.mp ha with rfl | hmem
      · simp [cleanList, hf]
      · cases hfb : f b <;> simp [cleanList, hfb, ih hmem]

/-- C4, counterexample: in `bulk_create` the permit-row insert
(`super().bulk_create`) runs before `full_clean`, so for a batch holding a
permit whose subject entry is missing its `end_time` the write mutates rows
before validation — the claim's "validation runs before the transaction
begins mutating rows" fails on this write path. -/
theorem bulk_create_mutates_before_validation :
    full_clean badRawPermit = none
    ∧ (bulk_createSteps [badRawPermit]).head? = some .insertPermitRows
    ∧ WriteStep.insertPermitRows.isMutation = true
    ∧ validationFirst (bulk_createSteps [badRawPermit]) = false := by
  decide

/-- C4, amended: the single-permit save path validates before any row
mutation, and on both write paths a validation failure leaves the store
exactly as it was (for `save` because `full_clean` aborts before the
transaction; for `bulk_create` because the atomic transaction rolls back
the already-executed inserts). -/
theorem writes_validate_or_rollback (st : Store) (rp : RawPermit)
    (rps : List RawPermit) :
    validationFirst (saveSteps rp) = true
    ∧ (full_clean rp = none → save st rp = st)
    ∧ ((∃ r ∈ rps, full_clean r = none) → bulk_create st rps = st) := by
  refine ⟨rfl, ?_, ?_⟩
  · intro h
    simp [save, h]
  · rintro ⟨r, hr, hnone⟩
    simp [bulk_create, cleanList_eq_none full_clean rps r hr hnone]

/-- Witness for the amended C4 at a concrete invalid batch. -/
theorem writes_validate_or_rollback_witness :
    validationFirst (saveSteps badRawPermit) = true
    ∧ save ⟨[], []⟩ badRawPermit = ⟨[], []⟩
    ∧ bulk_create ⟨[], []⟩ [badRawPermit] = ⟨[], []⟩ := by
  obtain ⟨h1, h2, h3⟩ :=
    writes_validate_or_rollback ⟨[], []⟩ badRawPermit [badRawPermit]
  exact ⟨h1, h2 (by decide), h3 ⟨badRawPermit, by decide, by decide⟩⟩

/-- Activation leaves no active series among series whose id differs from
the target. -/
theorem activate_inactive_filter (rest : List Series) (target : Nat)
    (h : ∀ u ∈ rest, u.id ≠ target) :
    (activate rest target).filter (fun s => s.active) = [] := by
  induction rest with
  | nil => rfl
  | cons u l ih =>
      have hu : u.id ≠ target := h u (List.mem_cons_self u l)
      have hl : ∀ v ∈ l, v.id ≠ target := fun v hv =>
        h v (List.mem_cons_of_mem u hv)
      simpa [activate, List.filter_cons, hu] using ih hl

/-- After activation at most one series is active, when series ids are
unique. -/
theorem activate_actives_le_one (ss : List Series) (target : Nat)
    (hids : (ss.map Series.id).Nodup) :
    ((activate ss target).filter fun s => s.active).length ≤ 1 := by
  induction ss with
  | nil => simp [activate]
  | cons s rest ih =>
      rw [List.map_cons, List.nodup_cons] at hids
      obtain ⟨hnot, hnodup⟩ := hids
      by_cases hid : s.id = target
      · have hrest : ∀ u ∈ rest, u.id ≠ target := by
          intro u hu heq
          exact hnot (List.mem_map.mpr ⟨u, hu, heq.trans hid.symm⟩)
        have hfil := activate_inactive_filter rest target hrest
        have hcons : activate (s :: rest) target
            = { s with active := decide (s.id = target) }
                :: activate rest target := rfl
        rw [hcons, List.filter_cons, hfil]
        simp [hid]
      · simpa [activate, List.filter_cons, hid] using ih hnodup

/-- C5: activation enforces the at-most-one-active invariant: after
`activate(B)` at most one series is active (given unique ids), every active
series is B, the target comes out active and every other series — in
particular a previously active A — comes out inactive. -/
theorem activate_single_active (ss : List Series) (target : Nat)
    (hids : (ss.map Series.id).Nodup) :
    ((activate ss target).filter fun s => s.active).length ≤ 1
    ∧ (∀ s ∈ activate ss target, s.active = true → s.id = target)
    ∧ (∀ s ∈ ss, s.id = target →
        { s with active := true } ∈ activate ss target)
    ∧ (∀ s ∈ ss, s.id ≠ target →
        { s with active := false } ∈ activate ss target) := by
  refine ⟨activate_actives_le_one ss target hids, ?_, ?_, ?_⟩
  · intro s hs ha
    simp only [activate, List.mem_map] at hs
    obtain ⟨u, _, rfl⟩ := hs
    simpa using ha
  · intro s hs hid
    simp only [activate, List.mem_map]
    exact ⟨s, hs, by simp [hid]⟩
  · intro s hs hid
    simp only [activate, List.mem_map]
    exact ⟨s, hs, by simp [hid]⟩

/-- Witness for C5 on a two-series store with series 1 active and series 2
being activated. -/
theorem activate_single_active_witness :
    ((activate [⟨1, 0, true⟩, ⟨2, 5, false⟩] 2).filter
        fun s => s.active).length ≤ 1
    ∧ (∀ s ∈ activate [⟨1, 0, true⟩, ⟨2, 5, false⟩] 2,
        s.active = true → s.id = 2)
    ∧ (∀ s ∈ ([⟨1, 0, true⟩, ⟨2, 5, false⟩] : List Series), s.id = 2 →
        { s with active := true } ∈ activate [⟨1, 0, true⟩, ⟨2, 5, false⟩] 2)
    ∧ (∀ s ∈ ([⟨1, 0, true⟩, ⟨2, 5, false⟩] : List Series), s.id ≠ 2 →
        { s with active := false }
          ∈ activate [⟨1, 0, true⟩, ⟨2, 5, false⟩] 2) :=
  activate_single_active [⟨1, 0, true⟩, ⟨2, 5, false⟩] 2 (by decide)

/-- C6, counterexample: `prunable()` tests `created_at`, not the time spent
inactive.  History: series 1 and 2 both created at time 0, series 1
activated at time 2, series 2 activated at time 9 (deactivating series 1).
At time 10 with retention window 3 the sweep deletes series 1 although it
has been inactive for only 1 < 3 time units — refuting the claim's "deleted
iff inactive for longer than the retention duration". -/
theorem prunable_ignores_inactive_duration :
    activateH (activateH [⟨1, 0, false, 0⟩, ⟨2, 0, false, 0⟩] 1 2) 2 9
      = [⟨1, 0, false, 9⟩, ⟨2, 0, true, 0⟩]
    ∧ prunableH ⟨1, 0, false, 9⟩ 10 3 = true
    ∧ pruneH [⟨1, 0, false, 9⟩, ⟨2, 0, true, 0⟩] 10 3 = [⟨2, 0, true, 0⟩]
    ∧ inactiveLongerThan ⟨1, 0, false, 9⟩ 10 3 = false := by
  decide

/-- C6, amended: the sweep deletes exactly the series whose `active` flag
is false and whose `created_at` lies before `now - retention_window`
(regardless of how long the series has been inactive); in particular an
active series is never pruned. -/
theorem prune_exact (ss : List SeriesHist) (now window : Int) :
    (∀ s : SeriesHist, s ∈ pruneH ss now window ↔
        s ∈ ss ∧ ¬(s.active = false ∧ s.created_at < now - window))
    ∧ (∀ s ∈ ss, s.active = true → s ∈ pruneH ss now window) := by
  have hpt : ∀ (s : SeriesHist), (!prunableH s now window) = true ↔
      ¬(s.active = false ∧ s.created_at < now - window) := by
    intro s
    cases ha : s.active <;>
      by_cases hc : s.created_at < now - window <;>
        simp [prunableH, ha, hc]
  constructor
  · intro s
    rw [pruneH, List.mem_filter, hpt s]
  · intro s hs ha
    rw [pruneH, List.mem_filter, hpt s]
    exact ⟨hs, fun h => by rw [ha] at h; exact absurd h.1 (by simp)⟩

/-- Witness for the amended C6: the active series 2 survives the sweep. -/
theorem prune_exact_witness :
    (⟨2, 0, true, 0⟩ : SeriesHist)
      ∈ pruneH [⟨1, 0, false, 9⟩, ⟨2, 0, true, 0⟩] 10 3 :=
  (prune_exact [⟨1, 0, false, 9⟩, ⟨2, 0, true, 0⟩] 10 3).2
    ⟨2, 0, true, 0⟩ (by decide) rfl

/-- C7, counterexample: replaying `test_old_series_are_pruned` — a store
with a fresh inactive series 1 and an old inactive series 2 (created 3 time
units before now, retention window 1).  Activating series 1 through the
endpoint deletes series 2, so a series row existing before the call is gone
after it. -/
theorem activate_endpoint_prunes :
    (⟨2, 7, false⟩ : Series) ∈ ([⟨1, 10, false⟩, ⟨2, 7, false⟩] : List Series)
    ∧ activateEndpoint [⟨1, 10, false⟩, ⟨2, 7, false⟩] 1 10 1
        = [⟨1, 10, true⟩]
    ∧ ∀ s ∈ activateEndpoint [⟨1, 10, false⟩, ⟨2, 7, false⟩] 1 10 1,
        s.id ≠ 2 := by
  decide

/-- C7, amended: the activation endpoint prunes in the same request: every
surviving row is a flag-update of a pre-existing series (nothing else
changes, nothing appears), a pre-existing series survives whenever it is
the target or is not older than the retention limit, and a non-target
series older than the limit is deleted. -/
theorem activate_endpoint_preserves_unprunable (ss : List Series)
    (target : Nat) (now window : Int) :
    (∀ s' ∈ activateEndpoint ss target now window,
        ∃ s ∈ ss, s' = { s with active := decide (s.id = target) })
    ∧ (∀ s ∈ ss, s.id = target ∨ ¬(s.created_at < now - window) →
        { s with active := decide (s.id = target) }
          ∈ activateEndpoint ss target now window)
    ∧ (∀ s ∈ ss, s.id ≠ target → s.created_at < now - window →
        { s with active := decide (s.id = target) }
          ∉ activateEndpoint ss target now window) := by
  refine ⟨?_, ?_, ?_⟩
  · intro s' hs'
    have hmem := (List.mem_filter.mp hs').1
    simp only [activate, List.mem_map] at hmem
    obtain ⟨u, hu, rfl⟩ := hmem
    exact ⟨u, hu, rfl⟩
  · intro s hs hcond
    apply List.mem_filter.mpr
    refine ⟨List.mem_map.mpr ⟨s, hs, rfl⟩, ?_⟩
    rcases hcond with h | h <;> simp [h]
  · intro s hs hid hlt hcontra
    have := (List.mem_filter.mp hcontra).2
    simp [hid, hlt] at this

/-- Witness for the amended C7 on the test scenario's store. -/
theorem activate_endpoint_preserves_unprunable_witness :
    ((⟨1, 10, true⟩ : Series)
      ∈ activateEndpoint [⟨1, 10, false⟩, ⟨2, 7, false⟩] 1 10 1)
    ∧ ((⟨2, 7, false⟩ : Series)
      ∉ activateEndpoint [⟨1, 10, false⟩, ⟨2, 7, false⟩] 1 10 1) := by
  have h := activate_endpoint_preserves_unprunable
    [⟨1, 10, false⟩, ⟨2, 7, false⟩] 1 10 1
  constructor
  · have := h.2.1 ⟨1, 10, false⟩ (by decide) (Or.inl rfl)
    simpa using this
  · have := h.2.2 ⟨2, 7, false⟩ (by decide) (by decide) (by decide)
    simpa using this

/-- After a successful save, the cache rows stored for the permit are
exactly the freshly generated ones. -/
theorem cacheFor_save (st : Store) (rp : RawPermit) (p : Permit)
    (hc : full_clean rp = some p) :
    cacheFor (save st rp) p.id = make_cache_items p.id p.subjects p.areas := by
  simp only [save, hc, cacheFor, List.filter_append]
  have h1 : (st.cache_items.filter fun r => r.permit_id ≠ p.id).filter
      (fun r => r.permit_id = p.id) = [] := by
    rw [List.filter_eq_nil_iff]
    intro r hr
    have := (List.mem_filter.mp hr).2
    simp only [decide_eq_true_eq] at this ⊢
    exact this
  have h2 : (make_cache_items p.id p.subjects p.areas).filter
      (fun r => r.permit_id = p.id) = make_cache_items p.id p.subjects p.areas := by
    rw [List.filter_eq_self]
    intro r hr
    simp [make_cache_items_permit_id p.id p.subjects p.areas r hr]
  rw [h1, h2, List.nil_append]

/-- C8: re-saving a permit whose subjects and areas are unchanged leaves
its cache row set identical to before the save — the delete-then-reinsert
rebuild is idempotent on unchanged input. -/
theorem resave_cache_unchanged (st : Store) (rp : RawPermit) (p : Permit)
    (hclean : full_clean rp = some p)
    (hsame : cacheFor st p.id = make_cache_items p.id p.subjects p.areas) :
    cacheFor (save st rp) p.id = cacheFor st p.id := by
  rw [cacheFor_save st rp p hclean, hsame]

/-- Witness for C8: saving `exampleRawPermit` twice in a row leaves its
cache rows unchanged between the first and the second save. -/
theorem resave_cache_unchanged_witness :
    cacheFor (save (save ⟨[], []⟩ exampleRawPermit) exampleRawPermit)
        examplePermit.id
      = cacheFor (save ⟨[], []⟩ exampleRawPermit) examplePermit.id :=
  resave_cache_unchanged (save ⟨[], []⟩ exampleRawPermit) exampleRawPermit
    examplePermit (by decide) (by decide)

/-- C9: every stored cache row has `start_time < end_time`: the generator
skips pairs with `max_start_time >= min_end_time`, and both write paths
(`save` and `bulk_create`) insert only generated rows, so the invariant is
preserved by every operation. -/
theorem cache_interval_invariant (st : Store) (rp : RawPermit)
    (rps : List RawPermit)
    (hinv : ∀ r ∈ st.cache_items, r.start_time < r.end_time) :
    (∀ r ∈ (save st rp).cache_items, r.start_time < r.end_time)
    ∧ (∀ r ∈ (bulk_create st rps).cache_items, r.start_time < r.end_time) := by
  constructor
  · intro r hr
    unfold save at hr
    cases hc : full_clean rp with
    | none => rw [hc] at hr; exact hinv r hr
    | some p =>
        rw [hc] at hr
        simp only [List.mem_append, List.mem_filter] at hr
        rcases hr with ⟨hmem, _⟩ | hmk
        · exact hinv r hmem
        · exact make_cache_items_lt p.id p.subjects p.areas r hmk
  · intro r hr
    unfold bulk_create at hr
    cases hc : cleanList full_clean rps with
    | none => rw [hc] at hr; exact hinv r hr
    | some ps =>
        rw [hc] at hr
        simp only [List.mem_append, List.mem_flatMap] at hr
        rcases hr with hmem | ⟨p, _, hmk⟩
        · exact hinv r hmem
        · exact make_cache_items_lt p.id p.subjects p.areas r hmk

/-- Witness for C9 starting from the empty store. -/
theorem cache_interval_invariant_witness :
    (∀ r ∈ (save ⟨[], []⟩ exampleRawPermit).cache_items,
        r.start_time < r.end_time)
    ∧ (∀ r ∈ (bulk_create ⟨[], []⟩ [exampleRawPermit]).cache_items,
        r.start_time < r.end_time) :=
  cache_interval_invariant ⟨[], []⟩ exampleRawPermit [exampleRawPermit]
    (fun r hr => absurd hr (List.not_mem_nil r))

/-- C10: a permit whose `subjects` or `areas` list is empty saves
successfully (both fields are `blank=True`), generates zero cache rows, and
is therefore never returned by `by_time`, `by_subject` or `by_area` for any
argument. -/
theorem empty_lists_vacuous (st : Store) (rp : RawPermit) (p : Permit)
    (t : Int) (reg aid : String)
    (hclean : full_clean rp = some p)
    (hempty : p.subjects = [] ∨ p.areas = []) :
    p ∈ (save st rp).permits
    ∧ make_cache_items p.id p.subjects p.areas = []
    ∧ p ∉ PermitQuerySet.by_time (save st rp).permits
        (save st rp).cache_items t
    ∧ p ∉ PermitQuerySet.by_subject (save st rp).permits
        (save st rp).cache_items reg
    ∧ p ∉ PermitQuerySet.by_area (save st rp).permits
        (save st rp).cache_items aid := by
  have hmk : make_cache_items p.id p.subjects p.areas = [] := by
    rcases hempty with h | h <;> simp [make_cache_items, h]
  have hnorow : ∀ r ∈ (save st rp).cache_items, r.permit_id ≠ p.id := by
    intro r hr
    simp only [save, hclean, hmk, List.append_nil] at hr
    have := (List.mem_filter.mp hr).2
    simpa using this
  refine ⟨by simp [save, hclean], hmk, ?_, ?_, ?_⟩
  · intro hmem
    obtain ⟨_, r, hr, hpid, _⟩ := (mem_by_time_iff _ _ _ _).mp hmem
    exact hnorow r hr hpid
  · intro hmem
    obtain ⟨_, r, hr, hpid, _⟩ := (mem_by_subject_iff _ _ _ _).mp hmem
    exact hnorow r hr hpid
  · intro hmem
    obtain ⟨_, r, hr, hpid, _⟩ := (mem_by_area_iff _ _ _ _).mp hmem
    exact hnorow r hr hpid

/-- Witness for C10: a permit with an empty subjects list and one valid
area entry saves into the empty store and is invisible to all three
queries. -/
theorem empty_lists_vacuous_witness :
    emptySubjectsPermit ∈ (save ⟨[], []⟩ emptySubjectsRawPermit).permits
    ∧ make_cache_items emptySubjectsPermit.id emptySubjectsPermit.subjects
        emptySubjectsPermit.areas = []
    ∧ emptySubjectsPermit ∉ PermitQuerySet.by_time
        (save ⟨[], []⟩ emptySubjectsRawPermit).permits
        (save ⟨[], []⟩ emptySubjectsRawPermit).cache_items 3
    ∧ emptySubjectsPermit ∉ PermitQuerySet.by_subject
        (save ⟨[], []⟩ emptySubjectsRawPermit).permits
        (save ⟨[], []⟩ emptySubjectsRawPermit).cache_items "ABC123"
    ∧ emptySubjectsPermit ∉ PermitQuerySet.by_area
        (save ⟨[], []⟩ emptySubjectsRawPermit).permits
        (save ⟨[], []⟩ emptySubjectsRawPermit).cache_items "A1" :=
  empty_lists_vacuous ⟨[], []⟩ emptySubjectsRawPermit emptySubjectsPermit 3
    "ABC123" "A1" (by decide) (Or.inl rfl)

end Parkkihubi
